import Mathlib

/-!
Shallow embedding of the x-recon content store (src/src/db/index.ts), the
hydration pipeline (the unnamed hydrator module) and the full-content
truncation layer of the listing tool, together with theorems settling the
frozen claims about canonicalization, the merge/acceptance policy, version
counting, optimistic concurrency and retry/backoff classification.

Strings are modelled as Lean `String`/`List Char`.  JavaScript whitespace and
the Unicode punctuation/symbol classes are modelled on their ASCII fragment
(every input exercised by the claims is ASCII).  The SHA-256 content digest is
modelled abstractly by the normalized body itself: digest equality coincides
with equality of normalized content, and the digest is null exactly when the
body is empty, which is the only way the code consumes it.
-/

namespace XRecon

/-- ASCII fragment of the JavaScript `\s` class used by the whitespace
normalizer, the URL regexes and `trim`. -/
def isJsWhitespace (c : Char) : Bool :=
  c == ' ' || c == '\t' || c == '\n' || c == '\r' || c == '\x0b' || c == '\x0c' || c == ' '

/-- Splits a character list into its maximal whitespace-free words. -/
def wordsAux (acc : List Char) : List Char → List (List Char)
  | [] => if acc.isEmpty then [] else [acc.reverse]
  | c :: rest =>
    if isJsWhitespace c then
      if acc.isEmpty then wordsAux [] rest else acc.reverse :: wordsAux [] rest
    else wordsAux (c :: acc) rest

/-- Joins words with single spaces. -/
def joinWithSpace : List (List Char) → List Char
  | [] => []
  | [w] => w
  | w :: ws => w ++ ' ' :: joinWithSpace ws

/-- `input.replace(/\s+/g, ' ').trim()` on a character list: collapse
whitespace runs to single spaces and trim both ends. -/
def normWsList (l : List Char) : List Char :=
  joinWithSpace (wordsAux [] l)

/-- `normalizeWhitespace` from src/src/db/index.ts: a null/undefined/empty
input yields the empty string. -/
def normalizeWhitespace (input : Option String) : String :=
  String.mk (normWsList (input.getD "").data)

/-- Case-insensitive match of the literal `https?:\/\/` at the head of the
list; returns the remainder after the scheme when it matches. -/
def matchScheme (l : List Char) : Option (List Char) :=
  match l with
  | a :: b :: c :: d :: rest =>
    if a.toLower == 'h' && b.toLower == 't' && c.toLower == 't' && d.toLower == 'p' then
      match rest with
      | s :: r1 =>
        if s.toLower == 's' then
          match r1 with
          | x :: y :: z :: r2 => if x == ':' && y == '/' && z == '/' then some r2 else none
          | _ => none
        else
          match s :: r1 with
          | x :: y :: z :: r2 => if x == ':' && y == '/' && z == '/' then some r2 else none
          | _ => none
      | [] => none
    else none
  | _ => none

/-- `/https?:\/\//i.test(s)`: the scheme occurs somewhere in the list. -/
def containsUrlScheme : List Char → Bool
  | [] => false
  | c :: rest => (matchScheme (c :: rest)).isSome || containsUrlScheme rest

/-- The trailing-punctuation class `[.!?,;:]` of `URL_ONLY_REGEX`. -/
def isTrailingPunct (c : Char) : Bool :=
  c == '.' || c == '!' || c == '?' || c == ',' || c == ';' || c == ':'

/-- Matches `\s*[.!?,;:]*\s*$`: the three character classes are pairwise
disjoint, so greedy stripping decides the match. -/
def matchWsPunctWs (l : List Char) : Bool :=
  ((l.dropWhile isJsWhitespace).dropWhile isTrailingPunct).all isJsWhitespace

/-- Matches `\S+\s*[.!?,;:]*\s*$` with full backtracking over the cut after
the non-whitespace run. -/
def matchSPlusTail : List Char → Bool
  | [] => false
  | c :: rest => !isJsWhitespace c && (matchWsPunctWs rest || matchSPlusTail rest)

/-- `URL_ONLY_REGEX = /^\s*(https?:\/\/\S+)\s*[.!?,;:]*\s*$/i`. -/
def urlOnlyMatch (l : List Char) : Bool :=
  match matchScheme (l.dropWhile isJsWhitespace) with
  | some rest => matchSPlusTail rest
  | none => false

/-- A position starts a match of `/https?:\/\/\S+/gi`: the scheme followed by
at least one non-whitespace character. -/
def isUrlStartWithBody (l : List Char) : Bool :=
  match matchScheme l with
  | some (c :: _) => !isJsWhitespace c
  | _ => false

/-- `s.replace(/https?:\/\/\S+/gi, '')`: left-to-right scan; each match spans
from the scheme to the next whitespace (scheme characters are themselves
non-whitespace, so the greedy `\S+` runs to the next whitespace). The flag is
true while inside a match being deleted. -/
def stripUrlsGo (skipping : Bool) : List Char → List Char
  | [] => []
  | c :: rest =>
    if skipping then
      if isJsWhitespace c then c :: stripUrlsGo false rest
      else stripUrlsGo true rest
    else
      if isUrlStartWithBody (c :: rest) then stripUrlsGo true rest
      else c :: stripUrlsGo false rest

/-- ASCII fragment of `[\p{P}\p{S}]`: every printable ASCII character that is
neither alphanumeric nor whitespace. -/
def isPunctOrSymbol (c : Char) : Bool :=
  ('!' ≤ c && c ≤ '/') || (':' ≤ c && c ≤ '@') ||
  ('\x5b' ≤ c && c ≤ '\x60') || ('\x7b' ≤ c && c ≤ '~')

/-- `.trim()` on a character list. -/
def trimList (l : List Char) : List Char :=
  ((l.dropWhile isJsWhitespace).reverse.dropWhile isJsWhitespace).reverse

/-- `isPlaceholderUrlContent` from src/src/db/index.ts lines 110-117. -/
def isPlaceholderUrlContent (content : String) : Bool :=
  let normalized := normWsList content.data
  if normalized.isEmpty then true
  else if urlOnlyMatch normalized then true
  else
    let withoutUrls :=
      trimList ((stripUrlsGo false normalized).filter (fun c => !isPunctOrSymbol c))
    decide (withoutUrls.length < 10) && containsUrlScheme normalized

/-- The eight content hydration statuses of §4.3 / the `content_status`
column.  The status written as `partial` in the source (a Lean keyword) is
modelled by the constructor `part`. -/
inductive ContentStatus where
  | new
  | pending
  | fetching
  | hydrated
  | part
  | failed
  | missing
  | stale
deriving DecidableEq

/-- The `content_source` column values. -/
inductive ContentSource where
  | article
  | note_tweet
  | tweet
  | unknown
deriving DecidableEq

/-- The `skippedReason` field of an upsert outcome. -/
inductive SkippedReason where
  | version_mismatch
  | concurrent_update
deriving DecidableEq

/-- The optional `article` sub-object of an `XPost` payload (src/src/types.ts). -/
structure ArticleObj where
  id : Option String := none
  title : Option String := none
  text : Option String := none
  summary : Option String := none
deriving DecidableEq

/-- The fields of the `XPost` payload (src/src/types.ts) consumed by the
canonicalizer and the upsert; the nested `author` object is flattened to the
two fields the store reads.  `Option` models an absent (undefined) field, and
`some ""` models a present empty string, matching JavaScript truthiness where
the code tests it. -/
structure XPost where
  id : String
  text : String
  author_handle : String
  author_name : String
  timestamp : String
  source_url : String
  in_reply_to : Option String := none
  quoted_tweet_id : Option String := none
  is_thread : Bool := false
  thread_id : Option String := none
  note_tweet_text : Option String := none
  article : Option ArticleObj := none
deriving DecidableEq

/-- `CanonicalContent` produced by `canonicalizePost`. -/
structure CanonicalContent where
  type : String
  text : String
  articleTitle : Option String
  articleContent : Option String
  contentText : String
  contentSource : ContentSource
  contentStatus : ContentStatus
  contentHash : Option String
  qualityScore : Nat
deriving DecidableEq

/-- One stored row of the `posts` table: every column touched by
`INSERT_POST_SQL` / `UPDATE_POST_SQL`.  The verbatim `raw_json` payload is
modelled by the post object itself (`JSON.stringify` is injective on posts). -/
structure StoredRow where
  id : String
  author_handle : String
  author_name : String
  text : String
  created_at : String
  source_url : String
  type : String
  conversation_id : Option String
  in_reply_to : Option String
  raw_post : XPost
  ingested_at : String
  source : String
  article_title : Option String
  article_content : Option String
  content_text : String
  content_source : ContentSource
  content_status : ContentStatus
  content_hash : Option String
  content_quality_score : Nat
  content_version : Nat
  content_fetched_at : Option String
  last_hydration_attempt_at : Option String
  attempt_count : Nat
  next_retry_at : Option String
  error_code : Option String
  content_error : Option String
deriving DecidableEq

/-- The options record of `upsertPost`. -/
structure UpsertOptions where
  forceContent : Option Bool := none
  expectedContentVersion : Option Nat := none
deriving DecidableEq

/-- `UpsertOutcome` returned by `upsertPost`. -/
structure UpsertOutcome where
  contentAccepted : Bool
  contentVersion : Nat
  contentStatus : ContentStatus
  skippedReason : Option SkippedReason := none
deriving DecidableEq

/-- JavaScript truthiness of an optional string field. -/
def optTruthy (o : Option String) : Bool := o.getD "" ≠ ""

/-- `sourcePriority` from src/src/db/index.ts lines 119-124. -/
def sourcePriority (source : String) : Nat :=
  if source = "hydration" || source = "backfill" then 30
  else if source = "manual" then 20
  else if source = "bookmark" then 10
  else 5

/-- `computeQualityScore` from src/src/db/index.ts lines 126-136. -/
def computeQualityScore (hasArticleBody : Bool) (isPlaceholder : Bool)
    (contentLength : Nat) (source : String) : Nat :=
  let articleScore := if hasArticleBody then 100 else 0
  let nonPlaceholderScore := if isPlaceholder then 0 else 20
  let lengthScore := min 50 (contentLength / 200)
  articleScore + nonPlaceholderScore + lengthScore + sourcePriority source

/-- `hashContent`: the SHA-256 digest is modelled abstractly by the
normalized body itself (digest equality iff normalized-content equality);
null when the normalized body is empty. -/
def hashContent (content : String) : Option String :=
  let normalized := normalizeWhitespace (some content)
  if normalized = "" then none else some normalized

/-- `determineType` from src/src/db/index.ts lines 144-150; article detection
takes priority, then reply, quote, thread root. -/
def determineType (post : XPost) : String :=
  if post.article ≠ none then "article"
  else if optTruthy post.in_reply_to then "reply"
  else if optTruthy post.quoted_tweet_id then "quote"
  else if post.is_thread then "thread_root"
  else "post"

/-- Turns an empty string into null, as `normalizeWhitespace(x) || null`. -/
def optNonempty (s : String) : Option String := if s = "" then none else some s

/-- `canonicalizePost` from src/src/db/index.ts lines 152-195. -/
def canonicalizePost (post : XPost) (source : String) : CanonicalContent :=
  let type := determineType post
  let articleTitle := optNonempty (normalizeWhitespace (post.article.bind (·.title)))
  let articleContent := optNonempty (normalizeWhitespace (post.article.bind (·.text)))
  let text := normalizeWhitespace (some (post.note_tweet_text.getD post.text))
  let contentText :=
    normalizeWhitespace (some (articleContent.getD (post.note_tweet_text.getD post.text)))
  let hasArticleBody := articleContent ≠ none
  let placeholder := isPlaceholderUrlContent contentText
  let contentSource : ContentSource :=
    if articleContent ≠ none then .article
    else if normalizeWhitespace post.note_tweet_text ≠ "" then .note_tweet
    else if normalizeWhitespace (some post.text) ≠ "" then .tweet
    else .unknown
  let hydraSource := source = "hydration" || source = "backfill"
  let contentStatus : ContentStatus :=
    if type = "article" then
      if hasArticleBody && !placeholder then .hydrated
      else if contentText ≠ "" && !placeholder then
        (if hydraSource then .part else .pending)
      else (if hydraSource then .part else .pending)
    else
      if contentText ≠ "" && !placeholder then .hydrated else .pending
  let contentHash := hashContent contentText
  let qualityScore := computeQualityScore hasArticleBody placeholder contentText.length source
  { type := type
    text := text
    articleTitle := articleTitle
    articleContent := articleContent
    contentText := contentText
    contentSource := contentSource
    contentStatus := contentStatus
    contentHash := contentHash
    qualityScore := qualityScore }

/-- `shouldAcceptContent` from src/src/db/index.ts lines 197-203. -/
def shouldAcceptContent (existing : StoredRow) (incoming : CanonicalContent)
    (forceContent : Bool) : Bool :=
  if incoming.contentHash = none then false
  else if forceContent then true
  else if existing.content_hash = incoming.contentHash then false
  else if existing.content_quality_score < incoming.qualityScore then true
  else decide (existing.content_status ≠ .hydrated)

/-- The update branch of `upsertPost` (src/src/db/index.ts lines 331-364):
the `UPDATE_POST_SQL` write keyed on the version that was just read.  In this
sequential single-writer embedding the conditional write always matches, so
the two-attempt race-retry loop of the source always returns from its first
iteration and is not modelled.  Note the source falls back to `null` for
`article_title` on rejection where every sibling field falls back to the
stored value. -/
def upsertUpdate (existing : StoredRow) (post : XPost) (normalized : CanonicalContent)
    (source : String) (forceContent : Bool) (now : String) :
    UpsertOutcome × Option StoredRow :=
  let acceptContent := shouldAcceptContent existing normalized forceContent
  let nextVersion := if acceptContent then existing.content_version + 1
    else existing.content_version
  let contentStatus := if acceptContent then normalized.contentStatus
    else existing.content_status
  let row : StoredRow :=
    { id := post.id
      author_handle := post.author_handle
      author_name := post.author_name
      text := normalized.text
      created_at := post.timestamp
      source_url := post.source_url
      type := normalized.type
      conversation_id := post.thread_id
      in_reply_to := post.in_reply_to
      raw_post := post
      ingested_at := now
      source := source
      article_title := if acceptContent then normalized.articleTitle else none
      article_content := if acceptContent then normalized.articleContent
        else existing.article_content
      content_text := if acceptContent then normalized.contentText
        else existing.content_text
      content_source := if acceptContent then normalized.contentSource
        else existing.content_source
      content_status := contentStatus
      content_hash := if acceptContent then normalized.contentHash
        else existing.content_hash
      content_quality_score := if acceptContent then normalized.qualityScore
        else existing.content_quality_score
      content_version := nextVersion
      content_fetched_at :=
        if acceptContent &&
            (normalized.contentStatus = .hydrated || normalized.contentStatus = .part)
        then some now else existing.content_fetched_at
      last_hydration_attempt_at := existing.last_hydration_attempt_at
      attempt_count := existing.attempt_count
      next_retry_at := if acceptContent then none else existing.next_retry_at
      error_code := if acceptContent then none else existing.error_code
      content_error := if acceptContent then none else existing.content_error }
  ({ contentAccepted := acceptContent
     contentVersion := nextVersion
     contentStatus := contentStatus }, some row)

/-- `upsertPost` from src/src/db/index.ts lines 274-374, acting on the row
stored for `post.id` (`none` when no row exists).  `now` stands for the
wall-clock strings the source obtains from `new Date().toISOString()` and
SQLite `datetime('now')`. -/
def upsertPost (state : Option StoredRow) (post : XPost) (source : String)
    (options : UpsertOptions) (now : String) : UpsertOutcome × Option StoredRow :=
  let normalized := canonicalizePost post source
  match state with
  | none =>
    let row : StoredRow :=
      { id := post.id
        author_handle := post.author_handle
        author_name := post.author_name
        text := normalized.text
        created_at := post.timestamp
        source_url := post.source_url
        type := normalized.type
        conversation_id := post.thread_id
        in_reply_to := post.in_reply_to
        raw_post := post
        ingested_at := now
        source := source
        article_title := normalized.articleTitle
        article_content := normalized.articleContent
        content_text := normalized.contentText
        content_source := normalized.contentSource
        content_status := normalized.contentStatus
        content_hash := normalized.contentHash
        content_quality_score := normalized.qualityScore
        content_version := 1
        content_fetched_at :=
          if normalized.contentStatus = .hydrated || normalized.contentStatus = .part
          then some now else none
        last_hydration_attempt_at := none
        attempt_count := 0
        next_retry_at := none
        error_code := none
        content_error := none }
    ({ contentAccepted := true, contentVersion := 1,
       contentStatus := normalized.contentStatus }, some row)
  | some existing =>
    match options.expectedContentVersion with
    | some expected =>
      if existing.content_version ≠ expected then
        ({ contentAccepted := false
           contentVersion := existing.content_version
           contentStatus := existing.content_status
           skippedReason := some .version_mismatch }, some existing)
      else upsertUpdate existing post normalized source (options.forceContent.getD false) now
    | none => upsertUpdate existing post normalized source (options.forceContent.getD false) now

/-- One call in a sequence of upserts against the same post id. -/
structure UpsertCall where
  post : XPost
  source : String
  options : UpsertOptions
  now : String

/-- Folds a sequence of upserts over the stored row, collecting the outcomes
in order. -/
def runUpserts (state : Option StoredRow) : List UpsertCall → Option StoredRow × List UpsertOutcome
  | [] => (state, [])
  | c :: rest =>
    let step := upsertPost state c.post c.source c.options c.now
    let tail := runUpserts step.2 rest
    (tail.1, step.1 :: tail.2)

/-- The stored `content_version` after running a sequence of upserts from an
empty store (0 when no row was ever created, i.e. for the empty sequence). -/
def versionAfter (calls : List UpsertCall) : Nat :=
  match (runUpserts none calls).1 with
  | some row => row.content_version
  | none => 0

/-- Number of outcomes in a list that accepted the incoming content. -/
def countAccepted (outs : List UpsertOutcome) : Nat :=
  outs.countP (·.contentAccepted)

/-- `RETRYABLE_STATUSES` from src/src/db/index.ts line 21. -/
def RETRYABLE_STATUSES : List ContentStatus :=
  [.new, .pending, .part, .failed, .stale]

/-- A hydration candidate row as returned by `getHydrationCandidates`. -/
structure HydrationCandidate where
  id : String
  content_status : ContentStatus
  content_version : Nat
  attempt_count : Nat
  next_retry_at : Option String
  created_at : String
deriving DecidableEq

/-- `markHydrationFetching` from src/src/db/index.ts lines 771-791: the
conditional claim of a candidate row.  The pair is (`changes = 1`, the row
afterwards); the update applies only when id and version match and the stored
status is in the retryable set. -/
def markHydrationFetching (row : StoredRow) (candidate : HydrationCandidate)
    (now : String) : Bool × StoredRow :=
  if row.id = candidate.id ∧ row.content_version = candidate.content_version ∧
      row.content_status ∈ RETRYABLE_STATUSES then
    (true,
     { row with
        content_status := .fetching
        last_hydration_attempt_at := some now
        attempt_count := row.attempt_count + 1
        error_code := none
        content_error := none })
  else (false, row)

/-- The WHERE clause of the ordinary (no explicit ids) hydration candidate
query (src/src/db/index.ts lines 740-755), cursor condition aside: retryable
status, article type, and — unless forced — a due or absent retry time
(SQLite compares the ISO strings lexicographically). -/
def hydrationCandidateEligible (row : StoredRow) (force : Bool) (now : String) : Bool :=
  row.content_status ∈ RETRYABLE_STATUSES && row.type = "article" &&
  (force || match row.next_retry_at with
            | none => true
            | some t => decide (t ≤ now))

/-- The WHERE clause of the explicit-ids hydration candidate query
(src/src/db/index.ts lines 724-738): membership in the id list and article
type, with no status or retry filter. -/
def explicitIdCandidateSelected (row : StoredRow) (ids : List String) : Bool :=
  row.id ∈ ids && row.type = "article"

/-- `nextRetryAt` backoff hours from the hydration module (part_005 lines
66-69): `attemptCount <= 1 ? 1 : attemptCount === 2 ? 6 : attemptCount === 3
? 24 : 24`. -/
def nextRetryAtHours (attemptCount : Nat) : Nat :=
  if attemptCount ≤ 1 then 1
  else if attemptCount = 2 then 6
  else if attemptCount = 3 then 24
  else 24

/-- The retry timestamp `Date.now() + hours * 60 * 60 * 1000`, in epoch
milliseconds. -/
def nextRetryAtMs (attemptCount nowMs : Nat) : Nat :=
  nowMs + nextRetryAtHours attemptCount * 60 * 60 * 1000

/-- The failure record passed to `markHydrationFailure`. -/
structure FailureMark where
  nextStatus : ContentStatus
  errorCode : String
  nextRetryAtMs : Option Nat
deriving DecidableEq

/-- The unresolved-fetch branch of `hydrateArticleContent` (part_005 lines
186-207): post-increment the candidate's attempt count, terminal when it has
reached `maxAttempts`. -/
def hydrateUnresolvedMark (attemptCount maxAttempts nowMs : Nat) : FailureMark :=
  let attempt := attemptCount + 1
  let terminal := maxAttempts ≤ attempt
  { nextStatus := if terminal then .missing else .failed
    errorCode := if terminal then "NOT_FOUND" else "RETRY_MISSING"
    nextRetryAtMs := if terminal then none else some (nextRetryAtMs attempt nowMs) }

/-- The full-content truncation loop of the listing tool (part_007 lines
39-53), on the `content_text` bodies of the returned rows (character lists;
a `continue`d null/empty body is the empty list).  Carries the remaining
character budget and the response-level truncated flag. -/
def truncGo (remaining : Nat) (truncated : Bool) : List (List Char) → List (List Char) × Bool
  | [] => ([], truncated)
  | t :: rest =>
    if t.isEmpty then
      let tail := truncGo remaining truncated rest
      (t :: tail.1, tail.2)
    else if t.length ≤ remaining then
      let tail := truncGo (remaining - t.length) truncated rest
      (t :: tail.1, tail.2)
    else
      let cut := if 0 < remaining then t.take remaining ++ ['.', '.', '.'] else []
      let tail := truncGo 0 true rest
      (cut :: tail.1, tail.2)

/-- The aggregate-cap pass of `listLocalContent` in the tool layer: the row
bodies after truncation and the response-level `truncated` flag. -/
def truncateFullContent (maxTotalChars : Nat) (rows : List (List Char)) :
    List (List Char) × Bool :=
  truncGo maxTotalChars false rows

/-- Total body length over the returned rows. -/
def sumLens (rows : List (List Char)) : Nat :=
  (rows.map List.length).sum

/-! ### Concrete fixtures

Concrete payloads and rows used to instantiate the theorems; the article
posts mirror the repository's own test fixtures. -/

/-- A metadata-only article payload: placeholder body, title only. -/
def post_article_meta : XPost :=
  { id := "article-1"
    text := "https://t.co/abc123"
    author_handle := "testuser"
    author_name := "Test User"
    timestamp := "2025-01-01T00:00:00.000Z"
    source_url := "https://x.com/testuser/status/123"
    article := some { title := some "Long-form article" } }

/-- A fully hydrated article payload with a real body. -/
def post_article_full : XPost :=
  { id := "article-2"
    text := "x"
    author_handle := "testuser"
    author_name := "Test User"
    timestamp := "2025-01-01T00:00:00.000Z"
    source_url := "https://x.com/testuser/status/456"
    article := some { title := some "Hydrated title"
                      text := some "Full article body with substantial detail and arguments." } }

/-- A plain low-quality text post. -/
def post_plain : XPost :=
  { id := "article-2"
    text := "hello there totally new words"
    author_handle := "testuser"
    author_name := "Test User"
    timestamp := "2025-01-01T00:00:00.000Z"
    source_url := "https://x.com/testuser/status/789"
    article := none }

/-- A plain post whose canonical body is exactly `body`. -/
def post_body : XPost :=
  { id := "p-body"
    text := "body"
    author_handle := "testuser"
    author_name := "Test User"
    timestamp := "2025-01-01T00:00:00.000Z"
    source_url := "https://x.com/testuser/status/900"
    article := none }

/-- A baseline stored row; variants adjust individual columns. -/
def baseRow : StoredRow :=
  { id := "r1"
    author_handle := "testuser"
    author_name := "Test User"
    text := "body"
    created_at := "2025-01-01T00:00:00.000Z"
    source_url := "u"
    type := "article"
    conversation_id := none
    in_reply_to := none
    raw_post := post_plain
    ingested_at := "2025-01-02T00:00:00.000Z"
    source := "bookmark"
    article_title := none
    article_content := none
    content_text := "body"
    content_source := .tweet
    content_status := .pending
    content_hash := some "body"
    content_quality_score := 30
    content_version := 1
    content_fetched_at := none
    last_hydration_attempt_at := none
    attempt_count := 0
    next_retry_at := none
    error_code := none
    content_error := none }

/-- A hydrated high-quality stored row. -/
def rowHydrated : StoredRow :=
  { baseRow with content_status := .hydrated, content_quality_score := 150 }

/-- A claimed row mid-hydration whose stored hash is the placeholder body. -/
def rowFetching : StoredRow :=
  { baseRow with
      content_status := .fetching
      content_hash := some "https://t.co/abc123"
      content_text := "https://t.co/abc123" }

/-- A terminal `missing` article row. -/
def missingRow : StoredRow :=
  { baseRow with id := "m1", content_status := .missing, content_version := 3 }

/-- The candidate record for `missingRow` as the explicit-ids query returns it. -/
def missingCandidate : HydrationCandidate :=
  { id := "m1"
    content_status := .missing
    content_version := 3
    attempt_count := 5
    next_retry_at := none
    created_at := "2025-01-01T00:00:00.000Z" }

/-- Initial insert of the fully hydrated article payload. -/
def fullInsert : UpsertOutcome × Option StoredRow :=
  upsertPost none post_article_full "hydration" {} "t0"

/-- A forced lower-quality upsert against the hydrated row. -/
def forcedDowngrade : UpsertOutcome × Option StoredRow :=
  upsertPost fullInsert.2 post_plain "bookmark" { forceContent := some true } "t1"

/-- A forced re-upsert of the identical payload (matching content hash). -/
def forcedRefresh : UpsertOutcome × Option StoredRow :=
  upsertPost fullInsert.2 post_article_full "hydration" { forceContent := some true } "t2"

/-- Initial insert of the metadata-only article payload. -/
def metaInsert : UpsertOutcome × Option StoredRow :=
  upsertPost none post_article_meta "bookmark" {} "t0"

/-- Re-upsert of the identical metadata-only payload: same hash, rejected. -/
def metaRerun : UpsertOutcome × Option StoredRow :=
  upsertPost metaInsert.2 post_article_meta "bookmark" {} "t1"

/-! ### Helper lemmas -/

/-- An unforced write whose hash matches the stored hash is never accepted. -/
theorem shouldAccept_of_hash_eq (existing : StoredRow) (incoming : CanonicalContent)
    (h : incoming.contentHash = existing.content_hash) :
    shouldAcceptContent existing incoming false = false := by
  unfold shouldAcceptContent
  rcases hc : incoming.contentHash with _ | v
  · simp
  · rw [hc] at h
    simp [← h]

/-- An unforced write of strictly lower quality never replaces hydrated
content. -/
theorem shouldAccept_of_lower_quality_hydrated (existing : StoredRow)
    (incoming : CanonicalContent) (hst : existing.content_status = .hydrated)
    (hq : incoming.qualityScore < existing.content_quality_score) :
    shouldAcceptContent existing incoming false = false := by
  unfold shouldAcceptContent
  split
  · rfl
  · rw [if_neg (by simp)]
    split
    · rfl
    · rw [if_neg (by omega)]
      simp [hst]

/-- A rejected unforced update keeps every canonical content column except
`article_title` (which the source nulls), keeps the version, and returns
`contentAccepted = false`. -/
theorem upsertUpdate_rejected (existing : StoredRow) (post : XPost)
    (normalized : CanonicalContent) (source : String) (now : String)
    (h : shouldAcceptContent existing normalized false = false) :
    ∃ row', upsertUpdate existing post normalized source false now =
      ({ contentAccepted := false, contentVersion := existing.content_version,
         contentStatus := existing.content_status }, some row') ∧
      row'.content_text = existing.content_text ∧
      row'.content_status = existing.content_status ∧
      row'.content_version = existing.content_version ∧
      row'.content_hash = existing.content_hash ∧
      row'.content_quality_score = existing.content_quality_score ∧
      row'.article_content = existing.article_content := by
  unfold upsertUpdate
  rw [h]
  simp

/-- Dispatch: with no expected version, an upsert on an existing row is the
update branch. -/
theorem upsertPost_some_none (row : StoredRow) (post : XPost) (source : String)
    (options : UpsertOptions) (now : String)
    (hv : options.expectedContentVersion = none) :
    upsertPost (some row) post source options now =
      upsertUpdate row post (canonicalizePost post source) source
        (options.forceContent.getD false) now := by
  unfold upsertPost
  rw [hv]

/-- Dispatch: with a matching expected version, an upsert on an existing row
is the update branch. -/
theorem upsertPost_some_match (row : StoredRow) (post : XPost) (source : String)
    (options : UpsertOptions) (now : String) (v : Nat)
    (hv : options.expectedContentVersion = some v) (he : row.content_version = v) :
    upsertPost (some row) post source options now =
      upsertUpdate row post (canonicalizePost post source) source
        (options.forceContent.getD false) now := by
  unfold upsertPost
  rw [hv]
  simp [he]

/-- Dispatch: with a stale expected version, an upsert on an existing row is
refused with `version_mismatch`. -/
theorem upsertPost_some_mismatch (row : StoredRow) (post : XPost) (source : String)
    (options : UpsertOptions) (now : String) (v : Nat)
    (hv : options.expectedContentVersion = some v) (hne : row.content_version ≠ v) :
    upsertPost (some row) post source options now =
      ({ contentAccepted := false
         contentVersion := row.content_version
         contentStatus := row.content_status
         skippedReason := some .version_mismatch }, some row) := by
  unfold upsertPost
  rw [hv]
  simp [hne]

/-- Each upsert step against an existing row keeps the row present and bumps
the version exactly when the content was accepted. -/
theorem upsertPost_step_version (row : StoredRow) (post : XPost) (source : String)
    (options : UpsertOptions) (now : String) :
    ∃ row', (upsertPost (some row) post source options now).2 = some row' ∧
      row'.content_version =
        row.content_version +
          (if (upsertPost (some row) post source options now).1.contentAccepted then 1 else 0) := by
  unfold upsertPost upsertUpdate
  rcases options.expectedContentVersion with _ | v
  · simp only []
    split <;> simp
  · simp only []
    split
    · simp
    · split <;> simp

/-- The initial insert accepts the content at version one. -/
theorem upsertPost_insert (post : XPost) (source : String) (options : UpsertOptions)
    (now : String) :
    (upsertPost none post source options now).1.contentAccepted = true ∧
    ∃ row', (upsertPost none post source options now).2 = some row' ∧
      row'.content_version = 1 := by
  unfold upsertPost
  simp

/-- Running a sequence of upserts from an existing row keeps a row present
and adds exactly one version per accepted outcome. -/
theorem runUpserts_version (calls : List UpsertCall) :
    ∀ row : StoredRow, ∃ row',
      (runUpserts (some row) calls).1 = some row' ∧
      row'.content_version =
        row.content_version + countAccepted (runUpserts (some row) calls).2 := by
  induction calls with
  | nil => intro row; exact ⟨row, rfl, by simp [runUpserts, countAccepted]⟩
  | cons c rest ih =>
    intro row
    obtain ⟨row₁, h₁, hv₁⟩ := upsertPost_step_version row c.post c.source c.options c.now
    obtain ⟨row₂, h₂, hv₂⟩ := ih row₁
    refine ⟨row₂, ?_, ?_⟩
    · simp only [runUpserts, h₁]
      exact h₂
    · simp only [runUpserts, h₁] at h₂ ⊢
      rw [hv₂, hv₁]
      simp only [countAccepted, List.countP_cons]
      by_cases hacc : (upsertPost (some row) c.post c.source c.options c.now).1.contentAccepted
      · simp [hacc]
        try omega
      · simp [hacc]
        try omega

/-- `runUpserts` distributes over append: the second batch starts from the
state the first batch left behind. -/
theorem runUpserts_append (l₁ l₂ : List UpsertCall) :
    ∀ st : Option StoredRow,
      runUpserts st (l₁ ++ l₂) =
        ((runUpserts (runUpserts st l₁).1 l₂).1,
         (runUpserts st l₁).2 ++ (runUpserts (runUpserts st l₁).1 l₂).2) := by
  induction l₁ with
  | nil => intro st; simp [runUpserts]
  | cons c rest ih =>
    intro st
    simp only [List.cons_append, runUpserts]
    rw [show rest.append l₂ = rest ++ l₂ from rfl, ih]

/-- With the budget exhausted after a truncation, every remaining row is
emptied. -/
theorem truncGo_zero_budget (rows : List (List Char)) :
    ∀ b : Bool, sumLens (truncGo 0 b rows).1 = 0 := by
  induction rows with
  | nil => intro b; simp [truncGo, sumLens]
  | cons t rest ih =>
    intro b
    by_cases ht : t.isEmpty
    · have ht' : t = [] := by simpa [List.isEmpty_iff] using ht
      have h := ih b
      simp [sumLens] at h
      simp [truncGo, ht, ht', sumLens, h]
    · have hlen : ¬ t.length ≤ 0 := by
        rcases t with _ | _
        · simp at ht
        · simp
      have h := ih true
      simp [sumLens] at h
      simp [truncGo, ht, hlen, sumLens, h]

/-- When the aggregate body length fits the budget, nothing is truncated and
the rows pass through unchanged. -/
theorem truncGo_no_trunc (rows : List (List Char)) :
    ∀ remaining : Nat, sumLens rows ≤ remaining →
      truncGo remaining false rows = (rows, false) := by
  induction rows with
  | nil => intro r _; rfl
  | cons t rest ih =>
    intro r hr
    have hsum : t.length + sumLens rest ≤ r := by
      simpa [sumLens] using hr
    by_cases ht : t.isEmpty
    · have ht' : t = [] := by simpa [List.isEmpty_iff] using ht
      have := ih r (by omega)
      simp [truncGo, ht, this]
    · have hlen : t.length ≤ r := by omega
      have := ih (r - t.length) (by omega)
      simp [truncGo, ht, hlen, this]

/-- Whenever the truncated flag comes up true, the total returned length is
at most the budget plus the three-character ellipsis marker. -/
theorem truncGo_bound (rows : List (List Char)) :
    ∀ remaining : Nat, (truncGo remaining false rows).2 = true →
      sumLens (truncGo remaining false rows).1 ≤ remaining + 3 := by
  induction rows with
  | nil => intro r h; simp [truncGo] at h
  | cons t rest ih =>
    intro r h
    by_cases ht : t.isEmpty
    · simp only [truncGo, ht, if_true] at h ⊢
      have ht' : t = [] := by simpa [List.isEmpty_iff] using ht
      have hb := ih r h
      simp [sumLens, ht'] at hb ⊢
      omega
    · by_cases hlen : t.length ≤ r
      · simp only [truncGo, ht, if_false, hlen, if_true, Bool.false_eq_true] at h ⊢
        have hb := ih (r - t.length) h
        simp [sumLens] at hb ⊢
        omega
      · simp only [truncGo, ht, if_false, hlen, Bool.false_eq_true] at h ⊢
        have hzero := truncGo_zero_budget rest
        simp [sumLens] at hzero
        by_cases hr : 0 < r
        · have htake : (List.take r t).length = r := by
            rw [List.length_take]
            omega
          simp [sumLens, hr, htake, hzero]
        · simp [sumLens, hr, hzero]

/-! ### Claim theorems -/

/-- C1 (counterexample): the claim as stated is false — with `forceContent`
set, an upsert whose computed quality score (30) is strictly lower than the
stored hydrated row's score (150) is accepted and replaces `content_text`. -/
theorem c1_force_downgrade_counterexample :
    (fullInsert.2.map (·.content_status)) = some .hydrated ∧
    (canonicalizePost post_plain "bookmark").qualityScore <
      ((fullInsert.2.map (·.content_quality_score)).getD 0) ∧
    forcedDowngrade.1.contentAccepted = true ∧
    forcedDowngrade.2.map (·.content_text) ≠ fullInsert.2.map (·.content_text) := by
  decide

/-- C1 (amended): once the stored `content_status` is `hydrated`, an upsert
without `forceContent` whose computed quality score is strictly lower than
the stored score returns `contentAccepted = false` and leaves `content_text`
(and the version and status) unchanged. -/
theorem c1_hydrated_never_downgraded_without_force (row : StoredRow) (post : XPost)
    (source : String) (options : UpsertOptions) (now : String)
    (hst : row.content_status = .hydrated)
    (hq : (canonicalizePost post source).qualityScore < row.content_quality_score)
    (hf : options.forceContent.getD false = false) :
    (upsertPost (some row) post source options now).1.contentAccepted = false ∧
    ∃ row', (upsertPost (some row) post source options now).2 = some row' ∧
      row'.content_text = row.content_text ∧
      row'.content_status = .hydrated ∧
      row'.content_version = row.content_version := by
  have hreject : shouldAcceptContent row (canonicalizePost post source) false = false :=
    shouldAccept_of_lower_quality_hydrated row (canonicalizePost post source) hst hq
  obtain ⟨row', hrow', htext, hstat, hver, -, -, -⟩ :=
    upsertUpdate_rejected row post (canonicalizePost post source) source now hreject
  rcases hv : options.expectedContentVersion with _ | v
  · rw [upsertPost_some_none row post source options now hv, hf, hrow']
    exact ⟨rfl, row', rfl, htext, hstat.trans hst, hver⟩
  · by_cases he : row.content_version = v
    · rw [upsertPost_some_match row post source options now v hv he, hf, hrow']
      exact ⟨rfl, row', rfl, htext, hstat.trans hst, hver⟩
    · rw [upsertPost_some_mismatch row post source options now v hv he]
      exact ⟨rfl, row, rfl, rfl, hst, rfl⟩

/-- C1 (witness). -/
theorem c1_hydrated_never_downgraded_witness :
    (upsertPost (some rowHydrated) post_plain "bookmark" {} "t5").1.contentAccepted = false ∧
    ∃ row', (upsertPost (some rowHydrated) post_plain "bookmark" {} "t5").2 = some row' ∧
      row'.content_text = rowHydrated.content_text ∧
      row'.content_status = .hydrated ∧
      row'.content_version = rowHydrated.content_version :=
  c1_hydrated_never_downgraded_without_force rowHydrated post_plain "bookmark" {} "t5"
    (by decide) (by decide) (by decide)

/-- C2 (counterexample): the claim as stated is false — when `forceContent`
is set, an incoming write whose content hash matches the stored hash is
accepted as a new version (the force check precedes the hash-equality
check), contradicting "a matching hash is never accepted as a new version". -/
theorem c2_force_matching_hash_counterexample :
    (fullInsert.2.map (·.content_hash)) =
      some (canonicalizePost post_article_full "hydration").contentHash ∧
    (canonicalizePost post_article_full "hydration").contentHash ≠ none ∧
    forcedRefresh.1.contentAccepted = true ∧
    forcedRefresh.1.contentVersion = 2 := by
  decide

/-- C2 (amended): on an existing row with no version mismatch, the incoming
content is accepted exactly when its hash is non-null and any of (a)
`forceContent` set, (b) hash differs and quality exceeds the stored score,
(c) hash differs and the stored status is not `hydrated`; when
`forceContent` is not set a matching hash is never accepted; a null hash
(empty body) is never accepted, even when forced. -/
theorem c2_acceptance_characterization (existing : StoredRow)
    (incoming : CanonicalContent) (force : Bool) :
    (shouldAcceptContent existing incoming force = true ↔
      (incoming.contentHash ≠ none ∧
        (force = true ∨
          (incoming.contentHash ≠ existing.content_hash ∧
            (existing.content_quality_score < incoming.qualityScore ∨
              existing.content_status ≠ .hydrated))))) ∧
    (force = false → incoming.contentHash = existing.content_hash →
      shouldAcceptContent existing incoming force = false) ∧
    (incoming.contentHash = none → shouldAcceptContent existing incoming force = false) := by
  refine ⟨?_, ?_, ?_⟩
  · rcases hc : incoming.contentHash with _ | v
    · simp [shouldAcceptContent, hc]
    · cases force
      · by_cases hh : existing.content_hash = some v
        · simp [shouldAcceptContent, hc, hh]
        · have hh' : ¬ some v = existing.content_hash := fun h => hh h.symm
          by_cases hq : existing.content_quality_score < incoming.qualityScore <;>
            simp [shouldAcceptContent, hc, hh, hh', hq]
      · simp [shouldAcceptContent, hc]
  · intro hf hh
    rw [hf]
    exact shouldAccept_of_hash_eq existing incoming hh
  · intro hn
    unfold shouldAcceptContent
    simp [hn]

/-- C2 (witness). -/
theorem c2_acceptance_witness :
    shouldAcceptContent baseRow (canonicalizePost post_body "bookmark") false = false :=
  (c2_acceptance_characterization baseRow (canonicalizePost post_body "bookmark") false).2.1
    rfl (by decide)

/-- C4: an upsert against an existing row with a stale
`expectedContentVersion` returns `skippedReason = version_mismatch` with
`contentAccepted = false` and performs no write: the stored row is returned
unchanged in every field. -/
theorem c4_version_mismatch_no_write (row : StoredRow) (post : XPost) (source : String)
    (fc : Option Bool) (v : Nat) (now : String) (h : v ≠ row.content_version) :
    upsertPost (some row) post source
        { forceContent := fc, expectedContentVersion := some v } now =
      ({ contentAccepted := false
         contentVersion := row.content_version
         contentStatus := row.content_status
         skippedReason := some .version_mismatch }, some row) := by
  unfold upsertPost
  simp [Ne.symm h]

/-- C4 (witness). -/
theorem c4_version_mismatch_witness :
    upsertPost (some baseRow) post_plain "bookmark"
        { forceContent := none, expectedContentVersion := some 99 } "t9" =
      ({ contentAccepted := false
         contentVersion := baseRow.content_version
         contentStatus := baseRow.content_status
         skippedReason := some .version_mismatch }, some baseRow) :=
  c4_version_mismatch_no_write baseRow post_plain "bookmark" none 99 "t9" (by decide)

/-- C5 (code bug): on a rejected merge the source's UPDATE writes
`article_title = NULL` (`acceptContent ? normalized.articleTitle : null`)
instead of falling back to the stored value the way every sibling content
column does, so a rejected re-upsert of the identical metadata-only article
payload erases the stored title while leaving the other canonical content
columns unchanged. -/
theorem c5_rejected_merge_clears_article_title :
    metaRerun.1.contentAccepted = false ∧
    metaInsert.2.map (·.article_title) = some (some "Long-form article") ∧
    metaRerun.2.map (·.article_title) = some none ∧
    metaRerun.2.map (·.content_text) = metaInsert.2.map (·.content_text) ∧
    metaRerun.2.map (·.content_version) = metaInsert.2.map (·.content_version) ∧
    metaRerun.2.map (·.content_status) = metaInsert.2.map (·.content_status) := by
  decide

/-- C6: whenever the canonical body is placeholder content, the derived
status is `pending` or `partial` (modelled `part`), never `hydrated`. -/
theorem c6_placeholder_never_hydrated (post : XPost) (source : String)
    (h : isPlaceholderUrlContent (canonicalizePost post source).contentText = true) :
    (canonicalizePost post source).contentStatus = .pending ∨
    (canonicalizePost post source).contentStatus = .part := by
  simp only [canonicalizePost] at h ⊢
  simp only [h, Bool.and_false, Bool.not_true]
  split
  · split
    · simp_all
    · split <;> simp
  · simp [h]

/-- C6 (witness). -/
theorem c6_placeholder_witness :
    isPlaceholderUrlContent (canonicalizePost post_article_meta "bookmark").contentText = true ∧
    ((canonicalizePost post_article_meta "bookmark").contentStatus = .pending ∨
     (canonicalizePost post_article_meta "bookmark").contentStatus = .part) :=
  ⟨by decide, c6_placeholder_never_hydrated post_article_meta "bookmark" (by decide)⟩

/-- C7: an unresolved hydration fetch transitions the claimed row to
`missing` with code `NOT_FOUND` and no retry time once the post-increment
attempt count has reached `maxAttempts`, and otherwise to `failed` with code
`RETRY_MISSING` and a retry scheduled 1 hour after attempt 1, 6 hours after
attempt 2, and 24 hours after attempt 3 or later. -/
theorem c7_unresolved_backoff (attemptCount maxAttempts nowMs : Nat) :
    (maxAttempts ≤ attemptCount + 1 →
      hydrateUnresolvedMark attemptCount maxAttempts nowMs =
        { nextStatus := .missing, errorCode := "NOT_FOUND", nextRetryAtMs := none }) ∧
    (attemptCount + 1 < maxAttempts →
      hydrateUnresolvedMark attemptCount maxAttempts nowMs =
        { nextStatus := .failed
          errorCode := "RETRY_MISSING"
          nextRetryAtMs := some (nowMs +
            (if attemptCount + 1 = 1 then 1
             else if attemptCount + 1 = 2 then 6 else 24) * 60 * 60 * 1000) }) := by
  constructor
  · intro h
    simp [hydrateUnresolvedMark, h]
  · intro h
    have h' : ¬ maxAttempts ≤ attemptCount + 1 := by omega
    simp only [hydrateUnresolvedMark, h', if_false, nextRetryAtMs, nextRetryAtHours]
    rcases attemptCount with _ | _ | n <;> simp

/-- C7 (witness). -/
theorem c7_unresolved_backoff_witness :
    (7 ≤ 6 + 1 ∧
      hydrateUnresolvedMark 6 7 0 =
        { nextStatus := .missing, errorCode := "NOT_FOUND", nextRetryAtMs := none }) ∧
    (0 + 1 < 7 ∧
      hydrateUnresolvedMark 0 7 5 =
        { nextStatus := .failed
          errorCode := "RETRY_MISSING"
          nextRetryAtMs := some 3600005 }) :=
  ⟨⟨by decide, (c7_unresolved_backoff 6 7 0).1 (by decide)⟩,
   ⟨by decide, by
      have h := (c7_unresolved_backoff 0 7 5).2 (by decide)
      simpa using h⟩⟩

/-- C9 (counterexample): the claim as stated is false — a `missing` article
row is selected by the explicit-ids candidate query, but the claim step
refuses it: `markHydrationFetching` only transitions rows whose status is in
the retryable set (which excludes `missing`; the hydration run never passes
`force` to the claim step), so the row stays `missing` instead of
transitioning to `fetching`. -/
theorem c9_missing_not_claimable_counterexample :
    explicitIdCandidateSelected missingRow ["m1"] = true ∧
    (markHydrationFetching missingRow missingCandidate "t1").1 = false ∧
    (markHydrationFetching missingRow missingCandidate "t1").2 = missingRow := by
  decide

/-- C9 (amended): `missing` is terminal even against a forced explicit-ID
re-hydrate — the claim transition refuses it and the row is unchanged — and
it is never eligible for the ordinary candidate query; `pending`, `partial`,
`failed` and `stale` article rows are eligible for re-selection; `hydrated`
rows never are. -/
theorem c9_missing_terminal_eligibility (row : StoredRow)
    (candidate : HydrationCandidate) (force : Bool) (now : String) :
    (row.content_status = .missing →
      (markHydrationFetching row candidate now).1 = false ∧
      (markHydrationFetching row candidate now).2 = row) ∧
    (row.content_status = .missing → hydrationCandidateEligible row force now = false) ∧
    ((row.content_status = .pending ∨ row.content_status = .part ∨
      row.content_status = .failed ∨ row.content_status = .stale) →
      row.type = "article" →
      hydrationCandidateEligible row true now = true) ∧
    (row.content_status = .hydrated → hydrationCandidateEligible row force now = false) := by
  refine ⟨?_, ?_, ?_, ?_⟩
  · intro h
    have : ¬ (row.id = candidate.id ∧ row.content_version = candidate.content_version ∧
        row.content_status ∈ RETRYABLE_STATUSES) := by
      simp [RETRYABLE_STATUSES, h]
    simp [markHydrationFetching, this]
  · intro h
    simp [hydrationCandidateEligible, RETRYABLE_STATUSES, h]
  · intro h ht
    rcases h with h | h | h | h <;>
      simp [hydrationCandidateEligible, RETRYABLE_STATUSES, h, ht]
  · intro h
    simp [hydrationCandidateEligible, RETRYABLE_STATUSES, h]

/-- C9 (witness). -/
theorem c9_eligibility_witness :
    ((markHydrationFetching missingRow missingCandidate "t2").1 = false ∧
      (markHydrationFetching missingRow missingCandidate "t2").2 = missingRow) ∧
    hydrationCandidateEligible missingRow false "n0" = false ∧
    hydrationCandidateEligible baseRow true "n0" = true ∧
    hydrationCandidateEligible rowHydrated false "n0" = false :=
  ⟨(c9_missing_terminal_eligibility missingRow missingCandidate false "t2").1 (by decide),
   (c9_missing_terminal_eligibility missingRow missingCandidate false "n0").2.1 (by decide),
   (c9_missing_terminal_eligibility baseRow missingCandidate true "n0").2.2.1
     (Or.inl (by decide)) (by decide),
   (c9_missing_terminal_eligibility rowHydrated missingCandidate false "n0").2.2.2 (by decide)⟩

/-- C10: an unforced upsert against a row claimed as `fetching` whose
incoming normalized content hash equals the stored hash is rejected and the
row stays `fetching` — it never transitions to `hydrated` or `partial`. -/
theorem c10_identical_hash_keeps_fetching (row : StoredRow) (post : XPost)
    (source : String) (options : UpsertOptions) (now : String)
    (hst : row.content_status = .fetching)
    (hh : (canonicalizePost post source).contentHash = row.content_hash)
    (hf : options.forceContent.getD false = false) :
    (upsertPost (some row) post source options now).1.contentAccepted = false ∧
    ∃ row', (upsertPost (some row) post source options now).2 = some row' ∧
      row'.content_status = .fetching := by
  have hreject : shouldAcceptContent row (canonicalizePost post source) false = false :=
    shouldAccept_of_hash_eq row (canonicalizePost post source) hh
  obtain ⟨row', hrow', -, hstat, -, -, -, -⟩ :=
    upsertUpdate_rejected row post (canonicalizePost post source) source now hreject
  rcases hv : options.expectedContentVersion with _ | v
  · rw [upsertPost_some_none row post source options now hv, hf, hrow']
    exact ⟨rfl, row', rfl, hstat.trans hst⟩
  · by_cases he : row.content_version = v
    · rw [upsertPost_some_match row post source options now v hv he, hf, hrow']
      exact ⟨rfl, row', rfl, hstat.trans hst⟩
    · rw [upsertPost_some_mismatch row post source options now v hv he]
      exact ⟨rfl, row, rfl, hst⟩

/-- C10 (witness). -/
theorem c10_identical_hash_witness :
    (upsertPost (some rowFetching) post_article_meta "hydration" {} "t7").1.contentAccepted
        = false ∧
    ∃ row', (upsertPost (some rowFetching) post_article_meta "hydration" {} "t7").2
        = some row' ∧ row'.content_status = .fetching :=
  c10_identical_hash_keeps_fetching rowFetching post_article_meta "hydration" {} "t7"
    (by decide) (by decide) (by decide)

/-- C3: starting from an empty store, `content_version` is 1 immediately
after the initial insert; after any sequence of upserts on the id it equals
1 plus the number of non-initial upserts that returned
`contentAccepted = true`; and it never decreases as the sequence extends. -/
theorem c3_version_counts_accepted (c : UpsertCall) (rest : List UpsertCall) :
    versionAfter [c] = 1 ∧
    versionAfter (c :: rest) =
      1 + countAccepted ((runUpserts none (c :: rest)).2.drop 1) ∧
    ∀ more : List UpsertCall,
      versionAfter (c :: rest) ≤ versionAfter ((c :: rest) ++ more) := by
  obtain ⟨hacc, row1, h1, hv1⟩ := upsertPost_insert c.post c.source c.options c.now
  obtain ⟨rowF, hF, hvF⟩ := runUpserts_version rest row1
  have hpair : runUpserts none (c :: rest) =
      ((runUpserts (some row1) rest).1,
        (upsertPost none c.post c.source c.options c.now).1 ::
          (runUpserts (some row1) rest).2) := by
    simp [runUpserts, h1]
  have hfst : (runUpserts none (c :: rest)).1 = some rowF := by
    rw [hpair]
    exact hF
  refine ⟨?_, ?_, ?_⟩
  · simp [versionAfter, runUpserts, h1, hv1]
  · unfold versionAfter
    rw [hpair]
    simp only [hF, List.drop_succ_cons, List.drop_zero]
    rw [hvF, hv1]
  · intro more
    obtain ⟨rowG, hG, hvG⟩ := runUpserts_version more rowF
    unfold versionAfter
    rw [runUpserts_append (c :: rest) more none, hfst]
    simp only [hfst, hG]
    rw [hvG]
    omega

/-- C8 (counterexample): the claim as stated is false — the three-character
ellipsis marker appended to the partially truncated row pushes the total over
the cap: with `max_total_chars = 2000` and a single 2001-character body, the
response is flagged truncated yet carries 2003 characters. -/
theorem c8_sum_exceeds_cap_counterexample :
    (truncateFullContent 2000 [List.replicate 2001 'a']).2 = true ∧
    2000 < sumLens (truncateFullContent 2000 [List.replicate 2001 'a']).1 := by
  have hrep : List.replicate 2001 'a' = 'a' :: List.replicate 2000 'a' := by
    rw [show (2001 : Nat) = 2000 + 1 from rfl, List.replicate_succ]
  have hne : (List.replicate 2001 'a').isEmpty = false := by
    rw [hrep]
    rfl
  have hlen : ¬ (List.replicate 2001 'a').length ≤ 2000 := by
    rw [List.length_replicate]
    omega
  have key : truncGo 2000 false [List.replicate 2001 'a'] =
      ([(List.replicate 2001 'a').take 2000 ++ ['.', '.', '.']], true) := by
    simp only [truncGo, hne, Bool.false_eq_true, if_false]
    rw [if_neg hlen, if_pos (by omega)]
  constructor
  · show (truncGo 2000 false [List.replicate 2001 'a']).2 = true
    rw [key]
  · show 2000 < sumLens (truncGo 2000 false [List.replicate 2001 'a']).1
    rw [key]
    have hl : (List.replicate 2001 'a').length = 2001 := by
      rw [List.length_replicate]
    simp only [sumLens, List.map_cons, List.map_nil, List.sum_cons, List.sum_nil,
      List.length_append, List.length_take]
    rw [hl]
    decide

/-- C8 (amended): whenever the response-level truncated flag is true, the
total returned body length is at most `max_total_chars + 3` (the one
partially truncated row carries a three-character ellipsis marker); the flag
is never set when the aggregate body length was already at or under the cap,
in which case every row passes through unchanged. -/
theorem c8_truncation_cap_with_ellipsis (maxTotalChars : Nat) (rows : List (List Char)) :
    ((truncateFullContent maxTotalChars rows).2 = true →
      sumLens (truncateFullContent maxTotalChars rows).1 ≤ maxTotalChars + 3) ∧
    (sumLens rows ≤ maxTotalChars →
      truncateFullContent maxTotalChars rows = (rows, false)) :=
  ⟨truncGo_bound rows maxTotalChars, truncGo_no_trunc rows maxTotalChars⟩

/-- C8 (witness). -/
theorem c8_truncation_witness :
    ((truncateFullContent 5 [['a', 'a', 'a', 'a', 'a', 'a']]).2 = true ∧
      sumLens (truncateFullContent 5 [['a', 'a', 'a', 'a', 'a', 'a']]).1 ≤ 5 + 3) ∧
    (sumLens [['b']] ≤ 5 ∧ truncateFullContent 5 [['b']] = ([['b']], false)) :=
  ⟨⟨by decide, (c8_truncation_cap_with_ellipsis 5 [['a', 'a', 'a', 'a', 'a', 'a']]).1 (by decide)⟩,
   ⟨by decide, (c8_truncation_cap_with_ellipsis 5 [['b']]).2 (by decide)⟩⟩

end XRecon
